import Mathlib

/-!
# uvgRTP: packet dispatcher and H.266 format

A shallow embedding of `src/pkt_dispatch.cc` and `src/formats/h266.cc`.

* Pointers to frames, hooks and opaque arguments are natural numbers (addresses).
* Bytes are natural numbers below 256; `size_t` is a natural number below `2 ^ 64`.
* Calls of user callbacks are recorded in a trace of events, in call order.
-/

namespace uvgrtp

/-! ## Error taxonomy -/

/-- Modelled from the spec: the result codes of `util.hh`, which is not among the sources
(section 4.H, "a closed enumeration"). -/
inductive rtp_error_t
  | RTP_OK
  | RTP_MEMORY_ERROR
  | RTP_INVALID_VALUE
  | RTP_GENERIC_ERROR
  | RTP_NOT_READY
  | RTP_INTERRUPTED
  | RTP_PKT_READY
  | RTP_PKT_MODIFIED
  | RTP_PKT_NOT_HANDLED
  | RTP_TIMEOUT
  | RTP_SEND_ERROR
  | RTP_RECV_ERROR
  | RTP_AUTH_FAIL
  | RTP_SSRC_COLLISION
  deriving DecidableEq, Repr

open rtp_error_t

/-! ## Packet dispatcher: data model -/

/-- A `uvg_rtp::frame::rtp_frame *`: the dispatcher only moves the pointer around. -/
abbrev frame_ptr := Nat

/-- What a packet handler leaves behind: its status, its own state, the receive buffer
(which it may rewrite in place) and the frame pointer stored through `out`. -/
structure handler_result (σ : Type) where
  ret : rtp_error_t
  st : σ
  buf : List Nat
  out : frame_ptr

/-- A `uvg_rtp::packet_handler`, called as `(*handler)(nread, recv_buffer, flags, &frame)`.
`addr` is the address of the function, `call` its behaviour on the handlers' state `σ`. -/
structure packet_handler (σ : Type) where
  addr : Nat
  call : σ → Int → List Nat → Int → frame_ptr → handler_result σ

/-- The members of `uvg_rtp::pkt_dispatcher` (with `active_` of the base class `runner`).
A null `recv_hook_` is `none`. -/
structure pkt_dispatcher (σ : Type) where
  active_ : Bool
  recv_hook_arg_ : Nat
  recv_hook_ : Option Nat
  frames_ : List frame_ptr
  packet_handlers_ : List (packet_handler σ)

/-- Calls of user code made by the dispatcher, in the order they happen. -/
inductive event
  | handler_called (addr : Nat) (ret : rtp_error_t)
  | hook_called (hook : Nat) (arg : Nat) (frame : frame_ptr)
  deriving DecidableEq, Repr

/-- The constructor `pkt_dispatcher()`: null hook and argument, empty containers.
Modelled from the spec: the base constructor `runner()` is not among the sources; the
worker is inactive until `start` (section 4.G). -/
def pkt_dispatcher.new (σ : Type) : pkt_dispatcher σ :=
  { active_ := false, recv_hook_arg_ := 0, recv_hook_ := none, frames_ := [],
    packet_handlers_ := [] }

/-- Modelled from the spec: `runner::active()` of `runner.cc`, which is not among the
sources, reads the `active_` flag (section 4.G). -/
def pkt_dispatcher.active {σ : Type} (d : pkt_dispatcher σ) : Bool :=
  d.active_

/-! ## Packet dispatcher: operations -/

/-- `pkt_dispatcher::install_receive_hook(arg, hook)`. -/
def install_receive_hook {σ : Type} (d : pkt_dispatcher σ) (arg : Nat) (hook : Option Nat) :
    rtp_error_t × pkt_dispatcher σ :=
  match hook with
  | none => (RTP_INVALID_VALUE, d)
  | some h => (RTP_OK, { d with recv_hook_ := some h, recv_hook_arg_ := arg })

/-- `pkt_dispatcher::install_handler(handler)`. -/
def install_handler {σ : Type} (d : pkt_dispatcher σ) (handler : Option (packet_handler σ)) :
    rtp_error_t × pkt_dispatcher σ :=
  match handler with
  | none => (RTP_INVALID_VALUE, d)
  | some h => (RTP_OK, { d with packet_handlers_ := d.packet_handlers_ ++ [h] })

/-- `pkt_dispatcher::get_handlers()`. -/
def get_handlers {σ : Type} (d : pkt_dispatcher σ) : List (packet_handler σ) :=
  d.packet_handlers_

/-- `pkt_dispatcher::return_frame(frame)`: the hook if there is one, else the FIFO. -/
def return_frame {σ : Type} (d : pkt_dispatcher σ) (frame : frame_ptr) (tr : List event) :
    pkt_dispatcher σ × List event :=
  match d.recv_hook_ with
  | some hook => (d, tr ++ [event.hook_called hook d.recv_hook_arg_ frame])
  | none => ({ d with frames_ := d.frames_ ++ [frame] }, tr)

/-- A sequence of `install_handler` calls, with the status of each. -/
def install_handlers {σ : Type} :
    pkt_dispatcher σ → List (Option (packet_handler σ)) → List rtp_error_t × pkt_dispatcher σ
  | d, [] => ([], d)
  | d, h :: hs =>
    let r := install_handler d h
    let rest := install_handlers r.2 hs
    (r.1 :: rest.1, rest.2)

/-! ## The reader: handler walk over one datagram -/

/-- How control leaves the `switch` in the body of the handler loop of `runner`. -/
inductive switch_exit
  | break_switch
  | continue_loop
  deriving DecidableEq, Repr

/-- The state the handler loop of `runner` works on: the dispatcher, the handlers' state,
and the locals `recv_buffer`, `frame`, `ret`; with the trace of calls made so far. -/
structure walk_state (σ : Type) where
  disp : pkt_dispatcher σ
  st : σ
  recv_buffer : List Nat
  frame : frame_ptr
  ret : rtp_error_t
  trace : List event

/-- The `switch ((ret = ...))` of `runner` (lines 197-220), after `ret` and `frame` have
been assigned. -/
def runner_switch {σ : Type} (w : walk_state σ) : switch_exit × walk_state σ :=
  match w.ret with
  | RTP_OK => (switch_exit.break_switch, w)
  | RTP_PKT_READY =>
    let r := return_frame w.disp w.frame w.trace
    (switch_exit.break_switch, { w with disp := r.1, trace := r.2 })
  | RTP_PKT_NOT_HANDLED => (switch_exit.continue_loop, w)
  | RTP_PKT_MODIFIED => (switch_exit.continue_loop, w)
  | RTP_GENERIC_ERROR => (switch_exit.break_switch, w)
  | _ => (switch_exit.break_switch, w)

/-- The call `(*handler)(nread, recv_buffer, flags, &frame)` with its assignment to `ret`. -/
def call_handler {σ : Type} (nread flags : Int) (h : packet_handler σ) (w : walk_state σ) :
    walk_state σ :=
  let r := h.call w.st nread w.recv_buffer flags w.frame
  { w with st := r.st, recv_buffer := r.buf, frame := r.out, ret := r.ret,
           trace := w.trace ++ [event.handler_called h.addr r.ret] }

/-- The loop `for (auto& handler : dispatcher->get_handlers())` of `runner` (lines 196-222).
A `break` inside the `switch` leaves the `switch` only: the switch is the last statement of
the loop body, so after it the loop goes on with the next handler, as it does on `continue`. -/
def runner_for {σ : Type} (nread flags : Int) :
    List (packet_handler σ) → walk_state σ → walk_state σ
  | [], w => w
  | h :: hs, w =>
    match runner_switch (call_handler nread flags h w) with
    | (switch_exit.break_switch, w1) => runner_for nread flags hs w1
    | (switch_exit.continue_loop, w1) => runner_for nread flags hs w1

/-- The handler walk of `runner` over one received datagram of `nread` bytes. -/
def runner_walk {σ : Type} (nread flags : Int) (w : walk_state σ) : walk_state σ :=
  runner_for nread flags (get_handlers w.disp) w

/-- The addresses of the handlers called, in call order. -/
def called_handlers : List event → List Nat
  | [] => []
  | event.handler_called a _ :: es => a :: called_handlers es
  | event.hook_called _ _ _ :: es => called_handlers es

/-- The statuses the handlers returned, in call order. -/
def returned_statuses : List event → List rtp_error_t
  | [] => []
  | event.handler_called _ r :: es => r :: returned_statuses es
  | event.hook_called _ _ _ :: es => returned_statuses es

/-- The hook calls made, in call order. -/
def hook_calls : List event → List event
  | [] => []
  | event.handler_called _ _ :: es => hook_calls es
  | event.hook_called h a f :: es => event.hook_called h a f :: hook_calls es

/-- A handler that ignores the datagram: it returns `ret` and stores `out` as the frame. -/
def const_handler (addr : Nat) (ret : rtp_error_t) (out : frame_ptr) : packet_handler Unit :=
  { addr := addr, call := fun st _ buf _ _ => { ret := ret, st := st, buf := buf, out := out } }

/-- An active dispatcher without hook, with an empty FIFO and the given handler chain. -/
def dispatcher_with (hs : List (packet_handler Unit)) : pkt_dispatcher Unit :=
  { pkt_dispatcher.new Unit with active_ := true, packet_handlers_ := hs }

/-- The reader's state when a datagram has been received, before the handler walk. -/
def walk_start (d : pkt_dispatcher Unit) : walk_state Unit :=
  { disp := d, st := (), recv_buffer := [], frame := 0, ret := RTP_OK, trace := [] }

/-- The calls of a chain as the ordering rule describes them: every handler of the chain is
called once, in chain order, on the handlers' state, the receive buffer and the frame
pointer that the handler before it left (the first one on `st`, `buf`, `frame`). The list
holds what each of these calls returns. -/
def chain_results {σ : Type} (nread flags : Int) :
    List (packet_handler σ) → σ → List Nat → frame_ptr → List (handler_result σ)
  | [], _, _, _ => []
  | h :: hs, st, buf, frame =>
    h.call st nread buf flags frame ::
      chain_results nread flags hs (h.call st nread buf flags frame).st
        (h.call st nread buf flags frame).buf (h.call st nread buf flags frame).out

/-- What the last of the calls of `chain_results` leaves, `r0` if the chain is empty. -/
def chain_final {σ : Type} (nread flags : Int) (hs : List (packet_handler σ))
    (r0 : handler_result σ) : handler_result σ :=
  hs.foldl (fun r h => h.call r.st nread r.buf flags r.out) r0

/-- A handler that leaves marks: it appends its address to the handlers' state, puts its
address in front of the receive buffer, adds one to the frame pointer and returns `ret`. -/
def marking_handler (addr : Nat) (ret : rtp_error_t) : packet_handler (List Nat) :=
  { addr := addr
    call := fun st _ buf _ frame =>
      { ret := ret, st := st ++ [addr], buf := addr :: buf, out := frame + 1 } }

/-- The reader's state before the walk of the chain `hs` of marking handlers over the
datagram `buf`, on an active dispatcher without hook. -/
def marking_walk_start (hs : List (packet_handler (List Nat))) (buf : List Nat) :
    walk_state (List Nat) :=
  { disp := { pkt_dispatcher.new (List Nat) with active_ := true, packet_handlers_ := hs }
    st := [], recv_buffer := buf, frame := 0, ret := RTP_OK, trace := [] }

/-! ## Pulling frames -/

/-- What the other threads do to the dispatcher while the calling thread sleeps: the change
made during the sleep number `k` of one call. -/
abbrev environment (σ : Type) := Nat → pkt_dispatcher σ → pkt_dispatcher σ

/-- The outcome of a `pull_frame` call: `nullptr`, a frame, or undefined behaviour because
`frames_.front()` was evaluated on an empty vector. -/
inductive pull_result
  | null
  | frame (f : frame_ptr)
  | front_of_empty
  deriving DecidableEq, Repr

/-- The locked section shared by both `pull_frame` overloads: `frames_.front()` followed by
`frames_.erase(frames_.begin())`. -/
def take_front {σ : Type} (d : pkt_dispatcher σ) : pull_result × pkt_dispatcher σ :=
  match d.frames_ with
  | [] => (pull_result.front_of_empty, d)
  | f :: rest => (pull_result.frame f, { d with frames_ := rest })

/-- The loop `while (frames_.empty() && this->active()) sleep_for(20ms)` of `pull_frame()`,
with `fuel` bounding the number of sleeps; `none` when the fuel is used up. -/
def pull_frame_wait {σ : Type} (env : environment σ) :
    Nat → Nat → pkt_dispatcher σ → Option (pkt_dispatcher σ)
  | 0, _, d => if d.frames_.isEmpty && d.active then none else some d
  | fuel + 1, k, d =>
    if d.frames_.isEmpty && d.active then pull_frame_wait env fuel (k + 1) (env k d)
    else some d

/-- `pkt_dispatcher::pull_frame()`. -/
def pull_frame {σ : Type} (env : environment σ) (fuel : Nat) (d : pkt_dispatcher σ) :
    Option (pull_result × pkt_dispatcher σ) :=
  match pull_frame_wait env fuel 0 d with
  | none => none
  | some d1 => if !d1.active then some (pull_result.null, d1) else some (take_front d1)

/-- The loop `while (frames_.empty() && this->active() && timeout)` of
`pull_frame(size_t timeout)`: one sleep of 1 ms and `--timeout` per round. -/
def pull_frame_timeout_wait {σ : Type} (env : environment σ) :
    Nat → Nat → pkt_dispatcher σ → Nat × pkt_dispatcher σ
  | 0, _, d => (0, d)
  | timeout + 1, k, d =>
    if d.frames_.isEmpty && d.active then pull_frame_timeout_wait env timeout (k + 1) (env k d)
    else (timeout + 1, d)

/-- `pkt_dispatcher::pull_frame(size_t timeout)`. -/
def pull_frame_timeout {σ : Type} (env : environment σ) (timeout : Nat)
    (d : pkt_dispatcher σ) : pull_result × pkt_dispatcher σ :=
  let d1 := (pull_frame_timeout_wait env timeout 0 d).2
  if !d1.active && d1.frames_.isEmpty then (pull_result.null, d1) else take_front d1

/-- The frames in `fs` handed to `return_frame` one after the other. -/
def return_frames {σ : Type} :
    pkt_dispatcher σ → List frame_ptr → List event → pkt_dispatcher σ × List event
  | d, [], tr => (d, tr)
  | d, f :: fs, tr => return_frames (return_frame d f tr).1 fs (return_frame d f tr).2

/-- A number of successive `pull_frame()` calls, `envs i` being the environment of call `i`;
`none` if one of them does not come back within `fuel` sleeps. -/
def pull_frames {σ : Type} (envs : Nat → environment σ) (fuel : Nat) :
    Nat → Nat → pkt_dispatcher σ → Option (List pull_result × pkt_dispatcher σ)
  | 0, _, d => some ([], d)
  | n + 1, i, d =>
    match pull_frame (envs i) fuel d with
    | none => none
    | some (r, d1) =>
      match pull_frames envs fuel n (i + 1) d1 with
      | none => none
      | some (rs, d2) => some (r :: rs, d2)

/-- No other thread touches the dispatcher. -/
def idle_env (σ : Type) : environment σ :=
  fun _ d => d

/-! ## H.266 format -/

namespace formats

/-- The enumerator `H266_PKT_FRAG` of `H266_NAL_TYPES` (`h266.hh`). -/
def H266_PKT_FRAG : Nat := 29

/-- Modelled from the spec: the fragment classes of `h26x.hh`, which is not among the
sources (section 4.C: "`NOT_FRAG`, `START`, `MIDDLE`, `END`, or `INVALID`"). -/
inductive FRAG_TYPES
  | FT_INVALID
  | FT_NOT_FRAG
  | FT_START
  | FT_MIDDLE
  | FT_END
  deriving DecidableEq, Repr

/-- The enumerators `HEADER_SIZE_H266_NAL` and `HEADER_SIZE_H266_FU` of `frame.hh`. -/
def HEADER_SIZE_H266_NAL : Nat := 2

/-- See `HEADER_SIZE_H266_NAL`. -/
def HEADER_SIZE_H266_FU : Nat := 1

/-- The fields of `uvgrtp::frame::rtp_frame` (`frame.hh`) that hold sizes and bytes; the
parsed headers and the source address are read by none of the functions below. -/
structure rtp_frame where
  padding_len : Nat
  payload_len : Nat
  probation_len : Nat
  probation_off : Nat
  probation : List Nat
  payload : List Nat
  dgram : List Nat
  dgram_size : Nat

/-- A frame that carries `payload` and nothing else. -/
def frame_of_payload (payload : List Nat) : rtp_frame :=
  { padding_len := 0, payload_len := payload.length, probation_len := 0, probation_off := 0,
    probation := [], payload := payload, dgram := [], dgram_size := 0 }

/-- Every element is a byte. -/
def is_bytes (bs : List Nat) : Prop :=
  ∀ b ∈ bs, b < 256

instance (bs : List Nat) : Decidable (is_bytes bs) := by
  unfold is_bytes; infer_instance

/-- `h266::get_nal_header_size()`. -/
def get_nal_header_size : Nat := HEADER_SIZE_H266_NAL % 256

/-- `h266::get_fu_header_size()`. -/
def get_fu_header_size : Nat := HEADER_SIZE_H266_FU % 256

/-- `h266::get_nal_type(uint8_t* data)`: `(data[1] >> 3) & 0x1f`, as a `uint8_t`. -/
def get_nal_type (data : List Nat) : Nat :=
  ((data.getD 1 0 >>> 3) &&& 0x1f) % 256

/-- `h266::get_fragment_type(rtp_frame* frame)`. -/
def get_fragment_type (frame : rtp_frame) : FRAG_TYPES :=
  let first_frag : Bool := (frame.payload.getD 2 0 &&& 0x80) != 0
  let last_frag : Bool := (frame.payload.getD 2 0 &&& 0x40) != 0
  if (frame.payload.getD 1 0 >>> 3) != H266_PKT_FRAG then FRAG_TYPES.FT_NOT_FRAG
  else if first_frag && last_frag then FRAG_TYPES.FT_INVALID
  else if first_frag then FRAG_TYPES.FT_START
  else if last_frag then FRAG_TYPES.FT_END
  else FRAG_TYPES.FT_MIDDLE

/-- Modelled from the spec: the NAL categories of `h26x.hh`, which is not among the
sources (section 4.C: "`NT_INTRA`", "`NT_INTER`", "`NT_OTHER`"). -/
inductive NAL_TYPES
  | NT_INTRA
  | NT_INTER
  | NT_OTHER
  deriving DecidableEq, Repr

/-- `h266::get_nal_type(rtp_frame* frame)`: the overload for received frames. -/
def get_nal_type_frame (frame : rtp_frame) : NAL_TYPES :=
  match frame.payload.getD 2 0 &&& 0x3f with
  | 19 => NAL_TYPES.NT_INTRA
  | 1 => NAL_TYPES.NT_INTER
  | _ => NAL_TYPES.NT_OTHER

/-- An FU header byte: the START flag in bit 7, the END flag in bit 6 and the NAL type `t`
in the low bits. -/
def fu_header_byte (start last : Bool) (t : Nat) : Nat :=
  (start.toNat <<< 7) ||| (last.toNat <<< 6) ||| t

/-- The operations of the frame queue `fqueue_` that `h266` calls; `queue.hh` is not among
the sources, so they are left open. `Q` is the state of the queue. -/
structure frame_queue (Q : Type) where
  enqueue_message : Q → List Nat → Nat → rtp_error_t × Q
  flush_queue : Q → rtp_error_t × Q

/-- `h266::handle_small_packet(data, data_len, more)`. -/
def handle_small_packet {Q : Type} (fqueue_ : frame_queue Q) (q : Q) (data : List Nat)
    (data_len : Nat) (more : Bool) : rtp_error_t × Q :=
  let r := fqueue_.enqueue_message q data data_len
  if r.1 != RTP_OK then (r.1, r.2)
  else if more then (RTP_NOT_READY, r.2)
  else fqueue_.flush_queue r.2

/-- A call made on the frame queue. -/
inductive queue_call
  | enqueue (data : List Nat) (data_len : Nat)
  | flush
  deriving DecidableEq, Repr

/-- The frame queue `fq` with a record of the calls made on it, oldest first. -/
def recording {Q : Type} (fq : frame_queue Q) : frame_queue (Q × List queue_call) :=
  { enqueue_message := fun s data len =>
      ((fq.enqueue_message s.1 data len).1,
       ((fq.enqueue_message s.1 data len).2, s.2 ++ [queue_call.enqueue data len]))
    flush_queue := fun s =>
      ((fq.flush_queue s.1).1, ((fq.flush_queue s.1).2, s.2 ++ [queue_call.flush])) }

/-- A frame queue without content whose operations return fixed statuses. -/
def fixed_queue (enq fl : rtp_error_t) : frame_queue Unit :=
  { enqueue_message := fun _ _ _ => (enq, ()), flush_queue := fun _ => (fl, ()) }

/-- The `h266_headers` scratch of the frame queue (`h266.hh`). -/
structure h266_headers where
  nal_header : List Nat
  fu_headers : List Nat

/-- What the `uint8_t*` of a scatter buffer points at. -/
inductive buf_ref
  | null
  | nal_header
  | fu_headers (i : Nat)
  deriving DecidableEq, Repr

/-- The objects `construct_format_header_divide_fus` reads and writes: the media headers of
the frame queue and the reference parameters `data_left`, `data_pos`, `buffers`. -/
structure fu_state where
  headers : h266_headers
  data_left : Nat
  data_pos : Nat
  buffers : List (Nat × buf_ref)

/-- Lines 94-106 of `h266.cc`: `construct_format_header_divide_fus` up to its final call.
`initialize_fu_headers` belongs to the base class `h26x`, which is not among the sources:
it gets the NAL type and the array `fu_headers`, and is left open. -/
def construct_format_header (initialize_fu_headers : Nat → List Nat → List Nat)
    (data : List Nat) (payload_size : Nat) (s : fu_state) : fu_state :=
  let nal_header := [data.getD 0 0, ((29 <<< 3) ||| (data.getD 1 0 &&& 0x7)) % 256]
  let fu_headers := initialize_fu_headers (get_nal_type data) s.headers.fu_headers
  { headers := { nal_header := nal_header, fu_headers := fu_headers }
    data_left := (s.data_left + 2 ^ 64 - HEADER_SIZE_H266_NAL) % 2 ^ 64
    data_pos := HEADER_SIZE_H266_NAL
    buffers := s.buffers ++ [(2, buf_ref.nal_header), (1, buf_ref.fu_headers 0),
                             (payload_size, buf_ref.null)] }

/-- `h266::construct_format_header_divide_fus(data, data_left, data_pos, payload_size,
buffers)`; `divide_frame_to_fus` of the base class `h26x` is left open as well. -/
def construct_format_header_divide_fus (initialize_fu_headers : Nat → List Nat → List Nat)
    (divide_frame_to_fus : List Nat → Nat → fu_state → rtp_error_t × fu_state)
    (data : List Nat) (payload_size : Nat) (s : fu_state) : rtp_error_t × fu_state :=
  divide_frame_to_fus data payload_size
    (construct_format_header initialize_fu_headers data payload_size s)

end formats

/-! ## Lifecycle: `start`, the reader thread and `stop`

The caller of `start()` and `stop()` and the reader thread `runner` as two threads that
take turns; every step is one statement of `pkt_dispatch.cc`. -/

namespace lifecycle

/-- The two threads. -/
inductive thread
  | caller
  | reader
  deriving DecidableEq, Repr

/-- Where the caller stands: before `start()`; inside `start()` after the thread has been
created (lines 26-29); after `start()`; inside `stop()` at the `try_lock` loop (line 37);
after `stop()` has returned. -/
inductive caller_pc
  | before_start
  | thread_created
  | started
  | stop_try_lock
  | stop_returned
  deriving DecidableEq, Repr

/-- Where the reader stands in `runner`: not created; at `while (!dispatcher->active())`
(line 173); at `exit_mtx->lock()` (line 176); at the head of the receive loop (line 178);
at `exit_mtx->unlock()` (line 226); gone. -/
inductive reader_pc
  | not_created
  | wait_active
  | lock_exit_mtx
  | loop_head
  | unlock_exit_mtx
  | exited
  deriving DecidableEq, Repr

/-- The shared state: the `active_` flag, the owner of `exit_mtx_`, both program counters
and the number of rounds of the receive loop (each of them walks the handler chain over the
datagrams it drains). -/
structure system where
  active_ : Bool
  exit_mtx_ : Option thread
  caller : caller_pc
  reader : reader_pc
  rounds : Nat
  deriving DecidableEq, Repr

/-- A fresh dispatcher, before `start()`. -/
def init : system :=
  { active_ := false, exit_mtx_ := none, caller := caller_pc.before_start,
    reader := reader_pc.not_created, rounds := 0 }

/-- One turn of the schedule: the caller moves, or the reader moves; when the reader is at
the head of its loop, `select_fails` says whether `select` reports an error there. -/
inductive turn
  | caller
  | reader (select_fails : Bool)
  deriving DecidableEq, Repr

/-- One step of the caller: `start()` creates the thread and then sets `active_`
(modelled from the spec: `runner::start()` of `runner.cc`, which is not among the sources,
"set[s] `active_`", section 4.G); `stop()` clears `active_` and then spins on `try_lock`.
`none` when the caller has nothing left to do. -/
def caller_step (s : system) : Option system :=
  match s.caller with
  | caller_pc.before_start =>
    some { s with caller := caller_pc.thread_created, reader := reader_pc.wait_active }
  | caller_pc.thread_created => some { s with caller := caller_pc.started, active_ := true }
  | caller_pc.started => some { s with caller := caller_pc.stop_try_lock, active_ := false }
  | caller_pc.stop_try_lock =>
    match s.exit_mtx_ with
    | none => some { s with caller := caller_pc.stop_returned, exit_mtx_ := some thread.caller }
    | some _ => some s
  | caller_pc.stop_returned => none

/-- One step of the reader thread `runner`. `none` when the reader cannot move: it does not
exist, it is blocked in `lock()`, or it has returned. -/
def reader_step (select_fails : Bool) (s : system) : Option system :=
  match s.reader with
  | reader_pc.not_created => none
  | reader_pc.wait_active =>
    if s.active_ then some { s with reader := reader_pc.lock_exit_mtx } else some s
  | reader_pc.lock_exit_mtx =>
    match s.exit_mtx_ with
    | none => some { s with reader := reader_pc.loop_head, exit_mtx_ := some thread.reader }
    | some _ => none
  | reader_pc.loop_head =>
    if s.active_ then
      if select_fails then some { s with reader := reader_pc.unlock_exit_mtx }
      else some { s with rounds := s.rounds + 1 }
    else some { s with reader := reader_pc.unlock_exit_mtx }
  | reader_pc.unlock_exit_mtx => some { s with reader := reader_pc.exited, exit_mtx_ := none }
  | reader_pc.exited => none

/-- One turn. -/
def step (t : turn) (s : system) : Option system :=
  match t with
  | turn.caller => caller_step s
  | turn.reader select_fails => reader_step select_fails s

/-- A schedule, turn by turn; `none` if a turn is given to a thread that cannot move. -/
def run : List turn → system → Option system
  | [], s => some s
  | t :: ts, s =>
    match step t s with
    | none => none
    | some s1 => run ts s1

/-- The state after `start()` and `stop()` have run to their end before the reader has
made a single step. -/
def stopped_before_reader_ran : system :=
  { active_ := false, exit_mtx_ := some thread.caller, caller := caller_pc.stop_returned,
    reader := reader_pc.wait_active, rounds := 0 }

/-- The state after `stop()` has run to its end while the reader stood between its wait
for `active_` and `exit_mtx->lock()`. -/
def stopped_before_reader_locked : system :=
  { active_ := false, exit_mtx_ := some thread.caller, caller := caller_pc.stop_returned,
    reader := reader_pc.lock_exit_mtx, rounds := 0 }

/-- The mutex discipline: the reader owns `exit_mtx_` exactly while it is in its receive
loop or about to unlock, the caller owns it exactly once `stop()` has returned, and there
is no reader before `start()`. -/
def mutex_discipline (s : system) : Prop :=
  (s.exit_mtx_ = some thread.reader ↔
      (s.reader = reader_pc.loop_head ∨ s.reader = reader_pc.unlock_exit_mtx)) ∧
    (s.exit_mtx_ = some thread.caller ↔ s.caller = caller_pc.stop_returned) ∧
    (s.caller = caller_pc.before_start → s.reader = reader_pc.not_created)

end lifecycle

/-! ## Theorems: the handler walk -/

section walk

variable {σ : Type}

theorem called_handlers_append (a b : List event) :
    called_handlers (a ++ b) = called_handlers a ++ called_handlers b := by
  induction a with
  | nil => rfl
  | cons e es ih => cases e <;> simp [called_handlers, ih]

theorem returned_statuses_append (a b : List event) :
    returned_statuses (a ++ b) = returned_statuses a ++ returned_statuses b := by
  induction a with
  | nil => rfl
  | cons e es ih => cases e <;> simp [returned_statuses, ih]

theorem hook_calls_append (a b : List event) :
    hook_calls (a ++ b) = hook_calls a ++ hook_calls b := by
  induction a with
  | nil => rfl
  | cons e es ih => cases e <;> simp [hook_calls, ih]

/-- Both ways out of the `switch` lead to the next handler. -/
theorem runner_for_cons (nread flags : Int) (h : packet_handler σ) (hs : List (packet_handler σ))
    (w : walk_state σ) :
    runner_for nread flags (h :: hs) w
      = runner_for nread flags hs (runner_switch (call_handler nread flags h w)).2 := by
  rw [runner_for]
  split <;> simp_all

theorem return_frame_called (d : pkt_dispatcher σ) (f : frame_ptr) (tr : List event) :
    called_handlers (return_frame d f tr).2 = called_handlers tr := by
  unfold return_frame
  split <;> simp [called_handlers_append, called_handlers]

theorem return_frame_statuses (d : pkt_dispatcher σ) (f : frame_ptr) (tr : List event) :
    returned_statuses (return_frame d f tr).2 = returned_statuses tr := by
  unfold return_frame
  split <;> simp [returned_statuses_append, returned_statuses]

theorem runner_switch_called (w : walk_state σ) :
    called_handlers (runner_switch w).2.trace = called_handlers w.trace := by
  unfold runner_switch
  split <;> simp [return_frame_called]

theorem runner_switch_statuses (w : walk_state σ) :
    returned_statuses (runner_switch w).2.trace = returned_statuses w.trace := by
  unfold runner_switch
  split <;> simp [return_frame_statuses]

/-- The `switch` changes the dispatcher and the trace only on `RTP_PKT_READY`. -/
theorem runner_switch_not_ready (w : walk_state σ) (h : w.ret ≠ RTP_PKT_READY) :
    (runner_switch w).2 = w := by
  unfold runner_switch
  split <;> simp_all

/-- The walk calls every handler of the chain, in chain order, whatever they return. -/
theorem runner_for_called (nread flags : Int) (hs : List (packet_handler σ)) (w : walk_state σ) :
    called_handlers (runner_for nread flags hs w).trace
      = called_handlers w.trace ++ hs.map packet_handler.addr := by
  induction hs generalizing w with
  | nil => simp [runner_for]
  | cons h hs ih =>
    rw [runner_for_cons, ih, runner_switch_called]
    simp [call_handler, called_handlers_append, called_handlers]

/-- While no handler returns `RTP_PKT_READY`, the walk leaves the dispatcher alone and adds
handler calls only to the trace. -/
theorem runner_for_no_ready (nread flags : Int) (hs : List (packet_handler σ))
    (w : walk_state σ)
    (hst : ∀ r ∈ (returned_statuses (runner_for nread flags hs w).trace).drop
        (returned_statuses w.trace).length, r ≠ RTP_PKT_READY) :
    (runner_for nread flags hs w).disp = w.disp ∧
      hook_calls (runner_for nread flags hs w).trace = hook_calls w.trace := by
  induction hs generalizing w with
  | nil => simp [runner_for]
  | cons h hs ih =>
    rw [runner_for_cons] at hst ⊢
    have hlen : ∀ (tl : List (packet_handler σ)) (v : walk_state σ),
        ∃ l, returned_statuses (runner_for nread flags tl v).trace
          = returned_statuses v.trace ++ l := by
      intro tl
      induction tl with
      | nil => intro v; exact ⟨[], by simp [runner_for]⟩
      | cons t tl iht =>
        intro v
        obtain ⟨l, hl⟩ := iht (runner_switch (call_handler nread flags t v)).2
        refine ⟨(call_handler nread flags t v).ret :: l, ?_⟩
        rw [runner_for_cons, hl, runner_switch_statuses]
        simp [call_handler, returned_statuses_append, returned_statuses]
    set c := call_handler nread flags h w with hc
    have hctr : returned_statuses c.trace = returned_statuses w.trace ++ [c.ret] := by
      simp [hc, call_handler, returned_statuses_append, returned_statuses]
    obtain ⟨l, hl⟩ := hlen hs (runner_switch c).2
    rw [hl, runner_switch_statuses, hctr] at hst
    have hret : c.ret ≠ RTP_PKT_READY := by
      apply hst
      simp
    have hsw : (runner_switch c).2 = c := runner_switch_not_ready c hret
    have htail : ∀ r ∈ (returned_statuses (runner_for nread flags hs c).trace).drop
        (returned_statuses c.trace).length, r ≠ RTP_PKT_READY := by
      intro r hr
      apply hst
      rw [hsw] at hl
      rw [hl, hctr] at hr
      simp at hr ⊢
      exact Or.inr hr
    rw [hsw]
    obtain ⟨h1, h2⟩ := ih c htail
    refine ⟨by rw [h1]; simp [hc, call_handler], ?_⟩
    rw [h2]
    simp [hc, call_handler, hook_calls_append, hook_calls]

/-- The `switch` leaves the handlers' state and the locals as the handler returned them. -/
theorem runner_switch_locals (w : walk_state σ) :
    (runner_switch w).2.st = w.st ∧ (runner_switch w).2.recv_buffer = w.recv_buffer ∧
      (runner_switch w).2.frame = w.frame ∧ (runner_switch w).2.ret = w.ret := by
  unfold runner_switch
  split <;> simp

/-- The walk applies the handlers: what it leaves in the handlers' state, the receive
buffer, `frame` and `ret` is what the chain of calls leaves, each handler being applied to
what the handler before it returned. -/
theorem runner_for_locals (nread flags : Int) (hs : List (packet_handler σ))
    (w : walk_state σ) :
    (runner_for nread flags hs w).st
        = (chain_final nread flags hs
            { ret := w.ret, st := w.st, buf := w.recv_buffer, out := w.frame }).st ∧
      (runner_for nread flags hs w).recv_buffer
        = (chain_final nread flags hs
            { ret := w.ret, st := w.st, buf := w.recv_buffer, out := w.frame }).buf ∧
      (runner_for nread flags hs w).frame
        = (chain_final nread flags hs
            { ret := w.ret, st := w.st, buf := w.recv_buffer, out := w.frame }).out ∧
      (runner_for nread flags hs w).ret
        = (chain_final nread flags hs
            { ret := w.ret, st := w.st, buf := w.recv_buffer, out := w.frame }).ret := by
  induction hs generalizing w with
  | nil => simp [runner_for, chain_final]
  | cons h hs ih =>
    obtain ⟨h1, h2, h3, h4⟩ := runner_switch_locals (call_handler nread flags h w)
    obtain ⟨i1, i2, i3, i4⟩ := ih (runner_switch (call_handler nread flags h w)).2
    rw [runner_for_cons, i1, i2, i3, i4, h1, h2, h3, h4]
    simp [chain_final, call_handler]

theorem chain_results_length (nread flags : Int) (hs : List (packet_handler σ)) (st : σ)
    (buf : List Nat) (frame : frame_ptr) :
    (chain_results nread flags hs st buf frame).length = hs.length := by
  induction hs generalizing st buf frame with
  | nil => rfl
  | cons h hs ih => simp [chain_results, ih]

theorem runner_for_statuses (nread flags : Int) (hs : List (packet_handler σ))
    (w : walk_state σ) :
    ∃ l, returned_statuses (runner_for nread flags hs w).trace
      = returned_statuses w.trace ++ l := by
  induction hs generalizing w with
  | nil => exact ⟨[], by simp [runner_for]⟩
  | cons h hs ih =>
    obtain ⟨l, hl⟩ := ih (runner_switch (call_handler nread flags h w)).2
    refine ⟨(call_handler nread flags h w).ret :: l, ?_⟩
    rw [runner_for_cons, hl, runner_switch_statuses]
    simp [call_handler, returned_statuses_append, returned_statuses]

/-- While no handler returns `RTP_PKT_READY`, the first handler passes the `switch`
untouched, and the rest of the walk returns no `RTP_PKT_READY` either. -/
theorem runner_for_no_ready_step (nread flags : Int) (h : packet_handler σ)
    (hs : List (packet_handler σ)) (w : walk_state σ)
    (hst : ∀ r ∈ (returned_statuses (runner_for nread flags (h :: hs) w).trace).drop
        (returned_statuses w.trace).length, r ≠ RTP_PKT_READY) :
    (runner_switch (call_handler nread flags h w)).2 = call_handler nread flags h w ∧
      ∀ r ∈ (returned_statuses
          (runner_for nread flags hs (call_handler nread flags h w)).trace).drop
            (returned_statuses (call_handler nread flags h w).trace).length,
        r ≠ RTP_PKT_READY := by
  rw [runner_for_cons] at hst
  set c := call_handler nread flags h w with hc
  have hctr : returned_statuses c.trace = returned_statuses w.trace ++ [c.ret] := by
    simp [hc, call_handler, returned_statuses_append, returned_statuses]
  obtain ⟨l, hl⟩ := runner_for_statuses nread flags hs (runner_switch c).2
  rw [hl, runner_switch_statuses, hctr] at hst
  have hret : c.ret ≠ RTP_PKT_READY := by
    apply hst
    simp
  have hsw : (runner_switch c).2 = c := runner_switch_not_ready c hret
  refine ⟨hsw, ?_⟩
  intro r hr
  apply hst
  rw [hsw] at hl
  rw [hl, hctr] at hr
  simp at hr ⊢
  exact Or.inr hr

/-- While no handler returns `RTP_PKT_READY`, the walk adds to the trace exactly one call
per handler of the chain, in chain order, with the status that this handler returns on
what the handler before it left. -/
theorem runner_for_no_ready_trace (nread flags : Int) (hs : List (packet_handler σ))
    (w : walk_state σ)
    (hst : ∀ r ∈ (returned_statuses (runner_for nread flags hs w).trace).drop
        (returned_statuses w.trace).length, r ≠ RTP_PKT_READY) :
    (runner_for nread flags hs w).trace
      = w.trace ++ List.zipWith (fun h r => event.handler_called h.addr r.ret) hs
          (chain_results nread flags hs w.st w.recv_buffer w.frame) := by
  induction hs generalizing w with
  | nil => simp [runner_for, chain_results]
  | cons h hs ih =>
    obtain ⟨hsw, htail⟩ := runner_for_no_ready_step nread flags h hs w hst
    rw [runner_for_cons, hsw, ih _ htail]
    simp [call_handler, chain_results]

end walk

/-! ## Theorems: the dispatcher -/

section dispatcher

variable {σ : Type}

/-- A sequence of `install_handler` calls appends the non-null handlers in call order,
reports `RTP_INVALID_VALUE` for the null ones and touches nothing else. -/
theorem install_handlers_spec (d : pkt_dispatcher σ) (args : List (Option (packet_handler σ))) :
    (install_handlers d args).2
        = { d with packet_handlers_ := d.packet_handlers_ ++ args.reduceOption } ∧
      (install_handlers d args).1
        = args.map (fun a => if a.isSome then RTP_OK else RTP_INVALID_VALUE) := by
  induction args generalizing d with
  | nil => simp [install_handlers]
  | cons a args ih =>
    cases a with
    | none =>
      obtain ⟨h1, h2⟩ := ih d
      simp [install_handlers, install_handler, h1, h2]
    | some h =>
      obtain ⟨h1, h2⟩ := ih { d with packet_handlers_ := d.packet_handlers_ ++ [h] }
      simp [install_handlers, install_handler, h1, h2, List.reduceOption_cons_of_some]

/-- C1, evaluated on the code: the handler walk does not stop at a handler that returns
`RTP_OK`, `RTP_PKT_READY`, `RTP_GENERIC_ERROR` or another status. In each of the four chains
below the first handler (address 1) returns such a status, and the second handler
(address 2) is called all the same for that datagram. -/
theorem C1_walk_continues_after_final_status :
    called_handlers (runner_walk 64 0 (walk_start (dispatcher_with
        [const_handler 1 RTP_OK 0, const_handler 2 RTP_PKT_NOT_HANDLED 0]))).trace = [1, 2] ∧
      called_handlers (runner_walk 64 0 (walk_start (dispatcher_with
        [const_handler 1 RTP_PKT_READY 7, const_handler 2 RTP_PKT_NOT_HANDLED 0]))).trace
          = [1, 2] ∧
      called_handlers (runner_walk 64 0 (walk_start (dispatcher_with
        [const_handler 1 RTP_GENERIC_ERROR 0, const_handler 2 RTP_PKT_NOT_HANDLED 0]))).trace
          = [1, 2] ∧
      called_handlers (runner_walk 64 0 (walk_start (dispatcher_with
        [const_handler 1 RTP_AUTH_FAIL 0, const_handler 2 RTP_PKT_NOT_HANDLED 0]))).trace
          = [1, 2] := by
  refine ⟨?_, ?_, ?_, ?_⟩ <;> rfl

/-- C2, evaluated on the code: one datagram can deliver two frames. With the chain of two
handlers that both return `RTP_PKT_READY` (frames 7 and 8), the walk over one datagram
appends both frames to the FIFO when no hook is installed, and calls the hook twice when
one is installed (hook 5, argument 9). -/
theorem C2_two_frames_for_one_datagram :
    (runner_walk 64 0 (walk_start (dispatcher_with
        [const_handler 1 RTP_PKT_READY 7, const_handler 2 RTP_PKT_READY 8]))).disp.frames_
          = [7, 8] ∧
      hook_calls (runner_walk 64 0 (walk_start
        { dispatcher_with [const_handler 1 RTP_PKT_READY 7, const_handler 2 RTP_PKT_READY 8]
            with recv_hook_ := some 5, recv_hook_arg_ := 9 })).trace
          = [event.hook_called 5 9 7, event.hook_called 5 9 8] := by
  refine ⟨?_, ?_⟩ <;> rfl

/-- C5: frame delivery goes to exactly one sink. After `install_receive_hook` with a
non-null hook (which returns `RTP_OK`), and for every dispatcher that has a hook,
`return_frame` calls that hook once with the stored argument and the frame and leaves the
dispatcher, hence the FIFO, as it is; without a hook it appends the frame at the tail of the
FIFO and calls nothing. `install_receive_hook` with a null hook returns `RTP_INVALID_VALUE`
and leaves the dispatcher, hence hook and argument, as it is. -/
theorem C5_delivery_has_one_sink (d : pkt_dispatcher σ) (arg hook : Nat) (frame : frame_ptr)
    (tr : List event) :
    ((install_receive_hook d arg (some hook)).1 = RTP_OK ∧
        (install_receive_hook d arg (some hook)).2
          = { d with recv_hook_ := some hook, recv_hook_arg_ := arg } ∧
        return_frame (install_receive_hook d arg (some hook)).2 frame tr
          = ((install_receive_hook d arg (some hook)).2,
              tr ++ [event.hook_called hook arg frame])) ∧
      (d.recv_hook_ = some hook →
        return_frame d frame tr = (d, tr ++ [event.hook_called hook d.recv_hook_arg_ frame])) ∧
      (d.recv_hook_ = none →
        return_frame d frame tr = ({ d with frames_ := d.frames_ ++ [frame] }, tr)) ∧
      install_receive_hook d arg none = (RTP_INVALID_VALUE, d) := by
  refine ⟨⟨rfl, rfl, rfl⟩, ?_, ?_, rfl⟩
  · intro h
    simp [return_frame, h]
  · intro h
    simp [return_frame, h]

/-- C5 at a dispatcher that has hook 5 with argument 9 and delivers frame 7. -/
theorem C5_delivery_has_one_sink_witness :
    ({ dispatcher_with [] with recv_hook_ := some 5, recv_hook_arg_ := 9 }).recv_hook_
        = some 5 ∧
      return_frame ({ dispatcher_with [] with recv_hook_ := some 5, recv_hook_arg_ := 9 }) 7 []
        = ({ dispatcher_with [] with recv_hook_ := some 5, recv_hook_arg_ := 9 },
            [event.hook_called 5 9 7]) :=
  ⟨rfl, (C5_delivery_has_one_sink
    ({ dispatcher_with [] with recv_hook_ := some 5, recv_hook_arg_ := 9 }) 0 5 7 []).2.1 rfl⟩

/-- C6: handlers run in installation order. `install_handler` with a null handler returns
`RTP_INVALID_VALUE` and leaves the dispatcher as it is; with a non-null handler it returns
`RTP_OK` and appends it to the chain; so a sequence of calls on a dispatcher extends its
chain (empty for a new dispatcher) by the non-null handlers in call order. On a datagram
for which every status returned during the walk is `RTP_PKT_MODIFIED` or
`RTP_PKT_NOT_HANDLED`, the walk calls the handlers of the chain once each, in chain order,
and delivers no frame: no hook call, and the dispatcher with its FIFO is unchanged. The
calls are real calls: the trace of the walk is one call per handler of the chain, in chain
order, each with the status that `call` of this handler returns on the state, buffer and
frame pointer left by `call` of the handler before it; and the handlers' state, the receive
buffer, `frame` and `ret` after the walk are those left by applying `call` of every handler
in chain order (`chain_final`; for a chain of two: by `call` of the second applied to what
`call` of the first returned). -/
theorem C6_handlers_run_in_installation_order (d : pkt_dispatcher σ) (h : packet_handler σ)
    (args : List (Option (packet_handler σ))) (nread flags : Int) (w : walk_state σ)
    (htr : w.trace = [])
    (hst : ∀ r ∈ returned_statuses (runner_walk nread flags w).trace,
      r = RTP_PKT_MODIFIED ∨ r = RTP_PKT_NOT_HANDLED) :
    install_handler d none = (RTP_INVALID_VALUE, d) ∧
      install_handler d (some h)
        = (RTP_OK, { d with packet_handlers_ := d.packet_handlers_ ++ [h] }) ∧
      get_handlers (install_handlers d args).2 = get_handlers d ++ args.reduceOption ∧
      get_handlers (install_handlers (pkt_dispatcher.new σ) args).2 = args.reduceOption ∧
      called_handlers (runner_walk nread flags w).trace
        = (get_handlers w.disp).map packet_handler.addr ∧
      hook_calls (runner_walk nread flags w).trace = [] ∧
      (runner_walk nread flags w).disp = w.disp ∧
      (runner_walk nread flags w).trace
        = List.zipWith (fun h r => event.handler_called h.addr r.ret) (get_handlers w.disp)
            (chain_results nread flags (get_handlers w.disp) w.st w.recv_buffer w.frame) ∧
      (chain_results nread flags (get_handlers w.disp) w.st w.recv_buffer w.frame).length
        = (get_handlers w.disp).length ∧
      (runner_walk nread flags w).st
        = (chain_final nread flags (get_handlers w.disp)
            { ret := w.ret, st := w.st, buf := w.recv_buffer, out := w.frame }).st ∧
      (runner_walk nread flags w).recv_buffer
        = (chain_final nread flags (get_handlers w.disp)
            { ret := w.ret, st := w.st, buf := w.recv_buffer, out := w.frame }).buf ∧
      (runner_walk nread flags w).frame
        = (chain_final nread flags (get_handlers w.disp)
            { ret := w.ret, st := w.st, buf := w.recv_buffer, out := w.frame }).out ∧
      (runner_walk nread flags w).ret
        = (chain_final nread flags (get_handlers w.disp)
            { ret := w.ret, st := w.st, buf := w.recv_buffer, out := w.frame }).ret ∧
      (∀ h1 h2 : packet_handler σ, get_handlers w.disp = [h1, h2] →
        (runner_walk nread flags w).st
          = (h2.call (h1.call w.st nread w.recv_buffer flags w.frame).st nread
              (h1.call w.st nread w.recv_buffer flags w.frame).buf flags
              (h1.call w.st nread w.recv_buffer flags w.frame).out).st ∧
        (runner_walk nread flags w).recv_buffer
          = (h2.call (h1.call w.st nread w.recv_buffer flags w.frame).st nread
              (h1.call w.st nread w.recv_buffer flags w.frame).buf flags
              (h1.call w.st nread w.recv_buffer flags w.frame).out).buf ∧
        (runner_walk nread flags w).frame
          = (h2.call (h1.call w.st nread w.recv_buffer flags w.frame).st nread
              (h1.call w.st nread w.recv_buffer flags w.frame).buf flags
              (h1.call w.st nread w.recv_buffer flags w.frame).out).out ∧
        (runner_walk nread flags w).ret
          = (h2.call (h1.call w.st nread w.recv_buffer flags w.frame).st nread
              (h1.call w.st nread w.recv_buffer flags w.frame).buf flags
              (h1.call w.st nread w.recv_buffer flags w.frame).out).ret ∧
        (runner_walk nread flags w).trace
          = [event.handler_called h1.addr
              (h1.call w.st nread w.recv_buffer flags w.frame).ret,
            event.handler_called h2.addr
              (h2.call (h1.call w.st nread w.recv_buffer flags w.frame).st nread
                (h1.call w.st nread w.recv_buffer flags w.frame).buf flags
                (h1.call w.st nread w.recv_buffer flags w.frame).out).ret]) := by
  have hnr : ∀ r ∈ (returned_statuses
      (runner_for nread flags (get_handlers w.disp) w).trace).drop
        (returned_statuses w.trace).length, r ≠ RTP_PKT_READY := by
    intro r hr
    rw [htr] at hr
    have := hst r (by simpa [runner_walk, returned_statuses] using hr)
    rcases this with h1 | h1 <;> simp [h1]
  obtain ⟨h1, h2⟩ := runner_for_no_ready nread flags (get_handlers w.disp) w hnr
  obtain ⟨l1, l2, l3, l4⟩ := runner_for_locals nread flags (get_handlers w.disp) w
  have htrace := runner_for_no_ready_trace nread flags (get_handlers w.disp) w hnr
  rw [htr, List.nil_append] at htrace
  refine ⟨rfl, rfl, ?_, ?_, ?_, ?_, h1, htrace, chain_results_length _ _ _ _ _ _,
    l1, l2, l3, l4, ?_⟩
  · rw [(install_handlers_spec d args).1]; rfl
  · rw [(install_handlers_spec (pkt_dispatcher.new σ) args).1]
    simp [get_handlers, pkt_dispatcher.new]
  · rw [runner_walk, runner_for_called, htr]
    simp [called_handlers]
  · rw [runner_walk, h2, htr]
    rfl
  · intro g1 g2 hg
    have hnr2 := hnr
    rw [hg] at hnr2
    obtain ⟨hsw1, hnr1⟩ := runner_for_no_ready_step nread flags g1 [g2] w hnr2
    obtain ⟨hsw2, _⟩ := runner_for_no_ready_step nread flags g2 [] _ hnr1
    have hwalk : runner_walk nread flags w
        = call_handler nread flags g2 (call_handler nread flags g1 w) := by
      rw [runner_walk, hg, runner_for_cons, hsw1, runner_for_cons, hsw2, runner_for]
    rw [hwalk]
    refine ⟨rfl, rfl, rfl, rfl, ?_⟩
    simp [call_handler, htr]

/-- C6 at the chain installed by the calls `[handler 1, null, handler 2]` on a new
dispatcher, where handler 1 returns `RTP_PKT_MODIFIED` and handler 2 `RTP_PKT_NOT_HANDLED`
and each handler marks the state, the buffer and the frame pointer it was given: on the
datagram `[9]` handler 1 runs first and handler 2 runs on what handler 1 left. -/
theorem C6_handlers_run_in_installation_order_witness :
    ((marking_walk_start
          [marking_handler 1 RTP_PKT_MODIFIED, marking_handler 2 RTP_PKT_NOT_HANDLED]
          [9]).trace = [] ∧
      ∀ r ∈ returned_statuses (runner_walk 64 0 (marking_walk_start
          [marking_handler 1 RTP_PKT_MODIFIED, marking_handler 2 RTP_PKT_NOT_HANDLED]
          [9])).trace,
        r = RTP_PKT_MODIFIED ∨ r = RTP_PKT_NOT_HANDLED) ∧
      get_handlers (install_handlers (pkt_dispatcher.new (List Nat))
        [some (marking_handler 1 RTP_PKT_MODIFIED), none,
          some (marking_handler 2 RTP_PKT_NOT_HANDLED)]).2
        = [marking_handler 1 RTP_PKT_MODIFIED, marking_handler 2 RTP_PKT_NOT_HANDLED] ∧
      (runner_walk 64 0 (marking_walk_start
          [marking_handler 1 RTP_PKT_MODIFIED, marking_handler 2 RTP_PKT_NOT_HANDLED]
          [9])).trace
        = [event.handler_called 1 RTP_PKT_MODIFIED,
            event.handler_called 2 RTP_PKT_NOT_HANDLED] ∧
      (runner_walk 64 0 (marking_walk_start
          [marking_handler 1 RTP_PKT_MODIFIED, marking_handler 2 RTP_PKT_NOT_HANDLED]
          [9])).st = [1, 2] ∧
      (runner_walk 64 0 (marking_walk_start
          [marking_handler 1 RTP_PKT_MODIFIED, marking_handler 2 RTP_PKT_NOT_HANDLED]
          [9])).recv_buffer = [2, 1, 9] ∧
      (runner_walk 64 0 (marking_walk_start
          [marking_handler 1 RTP_PKT_MODIFIED, marking_handler 2 RTP_PKT_NOT_HANDLED]
          [9])).frame = 2 ∧
      (runner_walk 64 0 (marking_walk_start
          [marking_handler 1 RTP_PKT_MODIFIED, marking_handler 2 RTP_PKT_NOT_HANDLED]
          [9])).ret = RTP_PKT_NOT_HANDLED :=
  have key := C6_handlers_run_in_installation_order (pkt_dispatcher.new (List Nat))
    (marking_handler 1 RTP_PKT_MODIFIED)
    [some (marking_handler 1 RTP_PKT_MODIFIED), none,
      some (marking_handler 2 RTP_PKT_NOT_HANDLED)] 64 0
    (marking_walk_start
      [marking_handler 1 RTP_PKT_MODIFIED, marking_handler 2 RTP_PKT_NOT_HANDLED] [9])
    rfl (by decide)
  ⟨⟨rfl, by decide⟩, key.2.2.2.1, key.2.2.2.2.2.2.2.1, key.2.2.2.2.2.2.2.2.2.1,
    key.2.2.2.2.2.2.2.2.2.2.1, key.2.2.2.2.2.2.2.2.2.2.2.1,
    key.2.2.2.2.2.2.2.2.2.2.2.2.1⟩

end dispatcher

/-! ## Theorems: pulling frames -/

section pull

variable {σ : Type}

/-- When the wait of `pull_frame()` ends, the FIFO is not empty or the dispatcher is
inactive. -/
theorem pull_frame_wait_exit (env : environment σ) (fuel k : Nat) (d d1 : pkt_dispatcher σ)
    (h : pull_frame_wait env fuel k d = some d1) :
    d1.frames_ ≠ [] ∨ d1.active = false := by
  induction fuel generalizing k d with
  | zero =>
    unfold pull_frame_wait at h
    split at h
    · simp at h
    · rename_i hc
      simp at h
      subst h
      by_cases he : d.frames_ = []
      · right; simpa [he] using hc
      · left; exact he
  | succ fuel ih =>
    unfold pull_frame_wait at h
    split at h
    · exact ih _ _ h
    · rename_i hc
      simp at h
      subst h
      by_cases he : d.frames_ = []
      · right; simpa [he] using hc
      · left; exact he

/-- The overload `pull_frame()` does what C3 says of it: when it comes back, it returns
null exactly when the dispatcher is inactive at the end of the wait, otherwise the frame at
the head of the FIFO, which it removes; it never reads the front of an empty FIFO. -/
theorem pull_frame_spec (env : environment σ) (fuel : Nat) (d d1 : pkt_dispatcher σ)
    (r : pull_result) (h : pull_frame env fuel d = some (r, d1)) :
    ∃ d0, pull_frame_wait env fuel 0 d = some d0 ∧
      (r = pull_result.null ↔ d0.active = false) ∧
      (d0.active = true → ∃ f rest, d0.frames_ = f :: rest ∧ r = pull_result.frame f ∧
        d1 = { d0 with frames_ := rest }) ∧
      r ≠ pull_result.front_of_empty := by
  unfold pull_frame at h
  split at h
  · simp at h
  · rename_i d0 hw
    refine ⟨d0, hw, ?_⟩
    have hexit := pull_frame_wait_exit env fuel 0 d d0 hw
    by_cases ha : d0.active = true
    · have hne : d0.frames_ ≠ [] := by
        rcases hexit with h1 | h1
        · exact h1
        · simp [ha] at h1
      obtain ⟨f, rest, hfr⟩ := List.exists_cons_of_ne_nil hne
      simp [ha, take_front, hfr] at h
      obtain ⟨h1, h2⟩ := h
      subst h1
      refine ⟨by simp [ha], fun _ => ⟨f, rest, hfr, rfl, h2.symm⟩, by simp⟩
    · simp at ha
      simp [ha] at h
      obtain ⟨h1, h2⟩ := h
      subst h1
      simp [ha]

/-- With a frame in the FIFO or an inactive dispatcher, `pull_frame()` comes back at once,
without any sleep and whatever the fuel. -/
theorem pull_frame_wait_ready (env : environment σ) (fuel k : Nat) (d : pkt_dispatcher σ)
    (h : (d.frames_.isEmpty && d.active) = false) : pull_frame_wait env fuel k d = some d := by
  cases fuel <;> simp [pull_frame_wait, h]

/-- After expiry of the timeout on an active dispatcher whose FIFO is still empty,
`pull_frame(timeout)` goes on to `frames_.front()`. -/
theorem pull_frame_timeout_expired (env : environment σ) (timeout : Nat)
    (d : pkt_dispatcher σ)
    (hact : (pull_frame_timeout_wait env timeout 0 d).2.active = true)
    (hempty : (pull_frame_timeout_wait env timeout 0 d).2.frames_ = []) :
    (pull_frame_timeout env timeout d).1 = pull_result.front_of_empty := by
  simp [pull_frame_timeout, hact, hempty, take_front]

/-- C3, evaluated on the code: `pull_frame(timeout)` guards the read of the FIFO with
`!active() && frames_.empty()`. On an active dispatcher with an empty FIFO that no other
thread touches, the call with timeout 0 and the call with timeout 5 both pass the guard and
evaluate `frames_.front()` on the empty FIFO instead of returning null; on an inactive
dispatcher whose FIFO holds frame 7 the call returns frame 7, not null, while `pull_frame()`
returns null there. -/
theorem C3_pull_frame_timeout_reads_empty_fifo :
    pull_frame_timeout (idle_env Unit) 0 (dispatcher_with [])
        = (pull_result.front_of_empty, dispatcher_with []) ∧
      pull_frame_timeout (idle_env Unit) 5 (dispatcher_with [])
        = (pull_result.front_of_empty, dispatcher_with []) ∧
      (pull_frame_timeout (idle_env Unit) 5
          { dispatcher_with [] with active_ := false, frames_ := [7] }).1
        = pull_result.frame 7 ∧
      pull_frame (idle_env Unit) 0 { dispatcher_with [] with active_ := false, frames_ := [7] }
        = some (pull_result.null,
            { dispatcher_with [] with active_ := false, frames_ := [7] }) := by
  refine ⟨?_, ?_, ?_, ?_⟩ <;> rfl

theorem return_frames_no_hook (d : pkt_dispatcher σ) (fs : List frame_ptr) (tr : List event)
    (hhook : d.recv_hook_ = none) :
    return_frames d fs tr = ({ d with frames_ := d.frames_ ++ fs }, tr) := by
  induction fs generalizing d with
  | nil => simp [return_frames]
  | cons f fs ih =>
    have h1 : return_frame d f tr = ({ d with frames_ := d.frames_ ++ [f] }, tr) := by
      simp [return_frame, hhook]
    simp only [return_frames, h1]
    rw [ih { d with frames_ := d.frames_ ++ [f] } hhook]
    simp

theorem pull_frames_drains (envs : Nat → environment σ) (fuel : Nat) (fs : List frame_ptr)
    (i : Nat) (d : pkt_dispatcher σ) (hact : d.active = true) :
    pull_frames envs fuel fs.length i { d with frames_ := fs }
      = some (fs.map pull_result.frame, { d with frames_ := [] }) := by
  induction fs generalizing i with
  | nil => simp [pull_frames]
  | cons f fs ih =>
    have hact1 : d.active_ = true := hact
    have hw : pull_frame_wait (envs i) fuel 0 { d with frames_ := f :: fs }
        = some { d with frames_ := f :: fs } :=
      pull_frame_wait_ready _ _ _ _ (by simp)
    have hp : pull_frame (envs i) fuel { d with frames_ := f :: fs }
        = some (pull_result.frame f, { d with frames_ := fs }) := by
      unfold pull_frame
      rw [hw]
      simp [pkt_dispatcher.active, hact1, take_front]
    simp [pull_frames, hp, ih]

/-- C4: first in, first out. On an active dispatcher without receive hook and with an empty
FIFO, after the frames `fs` have been handed to `return_frame` one by one (which calls
nothing), as many `pull_frame()` calls as there are frames all come back, whatever the
other threads do meanwhile and without a single sleep, and return the frames of `fs` in the
same order, each once; afterwards the dispatcher is as before, its FIFO empty. -/
theorem C4_pull_frame_is_fifo (d : pkt_dispatcher σ) (fs : List frame_ptr) (tr : List event)
    (envs : Nat → environment σ) (fuel : Nat)
    (hhook : d.recv_hook_ = none) (hact : d.active = true) (hempty : d.frames_ = []) :
    (return_frames d fs tr).2 = tr ∧
      (return_frames d fs tr).1.frames_ = fs ∧
      pull_frames envs fuel fs.length 0 (return_frames d fs tr).1
        = some (fs.map pull_result.frame, d) ∧
      d.frames_ = [] := by
  rw [return_frames_no_hook d fs tr hhook]
  refine ⟨rfl, by simp [hempty], ?_, hempty⟩
  have := pull_frames_drains envs fuel fs 0 d hact
  simp only [hempty, List.nil_append]
  rw [this]
  congr
  cases d
  simp_all

/-- C4 at the frames 7, 8, 9 on an active dispatcher without hook and handlers. -/
theorem C4_pull_frame_is_fifo_witness :
    ((dispatcher_with []).recv_hook_ = none ∧ (dispatcher_with []).active = true ∧
        (dispatcher_with []).frames_ = []) ∧
      pull_frames (fun _ => idle_env Unit) 0 3 0 (return_frames (dispatcher_with []) [7, 8, 9] []).1
        = some ([pull_result.frame 7, pull_result.frame 8, pull_result.frame 9],
            dispatcher_with []) :=
  ⟨⟨rfl, rfl, rfl⟩,
    (C4_pull_frame_is_fifo (dispatcher_with []) [7, 8, 9] [] (fun _ => idle_env Unit) 0
      rfl rfl rfl).2.2.1⟩

end pull

/-! ## Theorems: H.266 -/

namespace formats

open FRAG_TYPES

/-- On a byte, `(b >> 3) & 0x1f` is `b >> 3`. -/
theorem shift3_mask (b : Nat) (hb : b < 256) : (b >>> 3) &&& 0x1f = b >>> 3 := by
  have h : b >>> 3 < 32 := by
    rw [Nat.shiftRight_eq_div_pow]
    omega
  have h31 : (0x1f : Nat) = 2 ^ 5 - 1 := by norm_num
  rw [h31, Nat.and_pow_two_sub_one_eq_mod]
  exact Nat.mod_eq_of_lt h

/-- The test `b & 0x80` reads bit 7. -/
theorem mask80_testBit (b : Nat) : ((b &&& 0x80) != 0) = b.testBit 7 := by
  have h : (0x80 : Nat) = 2 ^ 7 := by norm_num
  rw [h, Nat.and_two_pow]
  cases b.testBit 7 <;> simp

/-- The test `b & 0x40` reads bit 6. -/
theorem mask40_testBit (b : Nat) : ((b &&& 0x40) != 0) = b.testBit 6 := by
  have h : (0x40 : Nat) = 2 ^ 6 := by norm_num
  rw [h, Nat.and_two_pow]
  cases b.testBit 6 <;> simp

theorem frag_or_low (r : Nat) (hr : r < 8) : (29 <<< 3) ||| r = 232 + r := by
  interval_cases r <;> rfl

/-- The value written to `nal_header[1]`. -/
theorem frag_header_byte (b : Nat) : ((29 <<< 3) ||| (b &&& 0x7)) = 232 + b % 8 := by
  have h7 : (0x7 : Nat) = 2 ^ 3 - 1 := by norm_num
  rw [h7, Nat.and_pow_two_sub_one_eq_mod]
  exact frag_or_low _ (Nat.mod_lt _ (by norm_num))

theorem frag_header_shift (r : Nat) (hr : r < 8) : (232 + r) >>> 3 = 29 := by
  rw [Nat.shiftRight_eq_div_pow]
  omega

theorem frag_header_low (r : Nat) (hr : r < 8) : (232 + r) &&& 0x7 = r := by
  interval_cases r <;> rfl

/-- A read inside a byte buffer yields a byte. -/
theorem getD_byte (bs : List Nat) (i : Nat) (hi : i < bs.length) (hb : is_bytes bs) :
    bs.getD i 0 < 256 := by
  rw [List.getD_eq_getElem bs 0 hi]
  exact hb _ (List.getElem_mem hi)

/-- C7: classification of a received H.266 frame whose payload has at least 3 bytes.
`get_fragment_type` returns one of the five classes; it returns `FT_NOT_FRAG` exactly
when the outer NAL type `(payload[1] >> 3) & 0x1F` is not 29; when it is 29, the result is
`FT_INVALID` exactly when bits 7 and 6 of `payload[2]` are both set, `FT_START` exactly when
only bit 7 is set, `FT_END` exactly when only bit 6 is set and `FT_MIDDLE` exactly when
neither is set; and every frame with the same bytes 1 and 2 gets the same class. -/
theorem C7_get_fragment_type_classifies (frame : rtp_frame)
    (hlen : 3 ≤ frame.payload.length) (hbytes : is_bytes frame.payload) :
    (get_fragment_type frame = FT_NOT_FRAG ∨ get_fragment_type frame = FT_START ∨
        get_fragment_type frame = FT_MIDDLE ∨ get_fragment_type frame = FT_END ∨
        get_fragment_type frame = FT_INVALID) ∧
      (get_fragment_type frame = FT_NOT_FRAG ↔
        (frame.payload.getD 1 0 >>> 3) &&& 0x1F ≠ 29) ∧
      ((frame.payload.getD 1 0 >>> 3) &&& 0x1F = 29 →
        (get_fragment_type frame = FT_INVALID ↔
          ((frame.payload.getD 2 0).testBit 7 = true ∧
            (frame.payload.getD 2 0).testBit 6 = true)) ∧
        (get_fragment_type frame = FT_START ↔
          ((frame.payload.getD 2 0).testBit 7 = true ∧
            (frame.payload.getD 2 0).testBit 6 = false)) ∧
        (get_fragment_type frame = FT_END ↔
          ((frame.payload.getD 2 0).testBit 7 = false ∧
            (frame.payload.getD 2 0).testBit 6 = true)) ∧
        (get_fragment_type frame = FT_MIDDLE ↔
          ((frame.payload.getD 2 0).testBit 7 = false ∧
            (frame.payload.getD 2 0).testBit 6 = false))) ∧
      (∀ g : rtp_frame, 3 ≤ g.payload.length → is_bytes g.payload →
        g.payload.getD 1 0 = frame.payload.getD 1 0 →
        g.payload.getD 2 0 = frame.payload.getD 2 0 →
        get_fragment_type g = get_fragment_type frame) := by
  have hb1 : frame.payload.getD 1 0 < 256 := getD_byte _ _ (by omega) hbytes
  have hmask := shift3_mask _ hb1
  refine ⟨?_, ?_, ?_, ?_⟩
  · cases h : get_fragment_type frame <;> simp
  · rw [hmask]
    unfold get_fragment_type
    simp only [mask80_testBit, mask40_testBit, H266_PKT_FRAG]
    generalize frame.payload.getD 1 0 >>> 3 = t
    generalize (frame.payload.getD 2 0).testBit 7 = s
    generalize (frame.payload.getD 2 0).testBit 6 = e
    by_cases h29 : t = 29
    · cases s <;> cases e <;> simp [h29]
    · simp [h29]
  · intro h29
    rw [hmask] at h29
    unfold get_fragment_type
    simp only [mask80_testBit, mask40_testBit, H266_PKT_FRAG, h29]
    generalize (frame.payload.getD 2 0).testBit 7 = s
    generalize (frame.payload.getD 2 0).testBit 6 = e
    cases s <;> cases e <;> simp
  · intro g _ _ h1 h2
    unfold get_fragment_type
    rw [h1, h2]

/-- C7 at the payload `[0, 0xE8, 0x80, 1]`: outer NAL type 29 with the START flag. -/
theorem C7_get_fragment_type_classifies_witness :
    (3 ≤ (frame_of_payload [0, 0xE8, 0x80, 1]).payload.length ∧
        is_bytes (frame_of_payload [0, 0xE8, 0x80, 1]).payload) ∧
      (get_fragment_type (frame_of_payload [0, 0xE8, 0x80, 1]) = FT_NOT_FRAG ↔
        ((frame_of_payload [0, 0xE8, 0x80, 1]).payload.getD 1 0 >>> 3) &&& 0x1F ≠ 29) :=
  ⟨⟨by decide, by decide⟩,
    (C7_get_fragment_type_classifies (frame_of_payload [0, 0xE8, 0x80, 1])
      (by decide) (by decide)).2.1⟩

/-- C8: the outer NAL header of the fragments. For a NAL unit `data` of at least 2 bytes,
`construct_format_header_divide_fus` hands to `divide_frame_to_fus` a state whose
`nal_header` is `[data[0], (29 << 3) | (data[1] & 0x7)]`, the second byte being
`232 + data[1] % 8`, a byte; the low three bits of that byte are those of `data[1]`; the
send-side `get_nal_type` of this header is 29 (`H266_PKT_FRAG`) whatever the type of
`data`; and `get_fragment_type` of a frame whose payload starts with this header is never
`FT_NOT_FRAG`. -/
theorem C8_fragment_header_has_type_29 (initialize_fu_headers : Nat → List Nat → List Nat)
    (divide_frame_to_fus : List Nat → Nat → fu_state → rtp_error_t × fu_state)
    (data : List Nat) (payload_size : Nat) (s : fu_state)
    (hlen : 2 ≤ data.length) (hbytes : is_bytes data) :
    construct_format_header_divide_fus initialize_fu_headers divide_frame_to_fus data
        payload_size s
      = divide_frame_to_fus data payload_size
          (construct_format_header initialize_fu_headers data payload_size s) ∧
      (construct_format_header initialize_fu_headers data payload_size s).headers.nal_header
        = [data.getD 0 0, ((29 <<< 3) ||| (data.getD 1 0 &&& 0x7)) % 256] ∧
      (construct_format_header initialize_fu_headers data payload_size s).headers.nal_header
        = [data.getD 0 0, 232 + data.getD 1 0 % 8] ∧
      is_bytes
        (construct_format_header initialize_fu_headers data payload_size s).headers.nal_header ∧
      ((construct_format_header initialize_fu_headers data payload_size
          s).headers.nal_header.getD 1 0) &&& 0x7 = data.getD 1 0 &&& 0x7 ∧
      get_nal_type
        (construct_format_header initialize_fu_headers data payload_size s).headers.nal_header
          = H266_PKT_FRAG ∧
      (∀ (frame : rtp_frame) (rest : List Nat),
        frame.payload
          = (construct_format_header initialize_fu_headers data payload_size
              s).headers.nal_header ++ rest →
        get_fragment_type frame ≠ FT_NOT_FRAG) := by
  have hr : data.getD 1 0 % 8 < 8 := Nat.mod_lt _ (by norm_num)
  have hb0 : data.getD 0 0 < 256 := getD_byte _ _ (by omega) hbytes
  have hhdr : (construct_format_header initialize_fu_headers data payload_size
      s).headers.nal_header = [data.getD 0 0, 232 + data.getD 1 0 % 8] := by
    simp only [construct_format_header, frag_header_byte]
    rw [Nat.mod_eq_of_lt (by omega)]
  have hlow : (232 + data.getD 1 0 % 8) &&& 0x7 = data.getD 1 0 &&& 0x7 := by
    rw [frag_header_low _ hr]
    have h7 : (0x7 : Nat) = 2 ^ 3 - 1 := by norm_num
    rw [h7, Nat.and_pow_two_sub_one_eq_mod]
  refine ⟨rfl, rfl, hhdr, ?_, ?_, ?_, ?_⟩
  · rw [hhdr]
    intro b hb
    rcases List.mem_cons.mp hb with h | h
    · omega
    · have h2 := List.mem_singleton.mp h
      omega
  · rw [hhdr]
    simp only [List.getD_cons_succ, List.getD_cons_zero]
    exact hlow
  · rw [hhdr]
    unfold get_nal_type
    simp only [List.getD_cons_succ, List.getD_cons_zero]
    rw [shift3_mask _ (by omega), frag_header_shift _ hr]
    rfl
  · intro frame rest hp
    rw [hhdr] at hp
    unfold get_fragment_type
    have h1 : frame.payload.getD 1 0 = 232 + data.getD 1 0 % 8 := by
      rw [hp]
      simp
    rw [h1, frag_header_shift _ hr]
    simp only [H266_PKT_FRAG]
    split
    · rename_i h
      simp at h
    · split
      · simp
      · split
        · simp
        · split <;> simp

/-- C8 at the NAL unit `[0x00, 0x9B, 0xAA]` (type 19, low bits 3) with open operations that
do nothing: the header written is `[0x00, 0xEB]`. -/
theorem C8_fragment_header_has_type_29_witness :
    (2 ≤ [0x00, 0x9B, 0xAA].length ∧ is_bytes [0x00, 0x9B, 0xAA]) ∧
      (construct_format_header (fun _ fu => fu) [0x00, 0x9B, 0xAA] 1400
          { headers := { nal_header := [0, 0], fu_headers := [0, 0, 0] }, data_left := 3,
            data_pos := 0, buffers := [] }).headers.nal_header = [0x00, 0xEB] :=
  ⟨⟨by decide, by decide⟩,
    (C8_fragment_header_has_type_29 (fun _ fu => fu) (fun _ _ st => (RTP_OK, st))
      [0x00, 0x9B, 0xAA] 1400
      { headers := { nal_header := [0, 0], fu_headers := [0, 0, 0] }, data_left := 3,
        data_pos := 0, buffers := [] } (by decide) (by decide)).2.2.1⟩

/-- The record of calls does not change what `handle_small_packet` does to the queue. -/
theorem handle_small_packet_recording {Q : Type} (fq : frame_queue Q) (q : Q)
    (log : List queue_call) (data : List Nat) (data_len : Nat) (more : Bool) :
    (handle_small_packet (recording fq) (q, log) data data_len more).1
        = (handle_small_packet fq q data data_len more).1 ∧
      (handle_small_packet (recording fq) (q, log) data data_len more).2.1
        = (handle_small_packet fq q data data_len more).2 := by
  unfold handle_small_packet recording
  simp only
  split
  · simp
  · split <;> simp

/-- C9: `handle_small_packet` on any frame queue, with the calls made on the queue
recorded. If the enqueue of `(data, data_len)` fails, the result is that error and the only
call made is the enqueue; if it succeeds and `more` is set, the result is `RTP_NOT_READY`
and the only call made is the enqueue; if it succeeds and `more` is not set, the calls made
are the enqueue and then one flush of the queue the enqueue left, and the result is what
that flush returns. -/
theorem C9_handle_small_packet (Q : Type) (fq : frame_queue Q) (q : Q)
    (log : List queue_call) (data : List Nat) (data_len : Nat) (more : Bool) :
    ((fq.enqueue_message q data data_len).1 ≠ RTP_OK →
        handle_small_packet (recording fq) (q, log) data data_len more
          = ((fq.enqueue_message q data data_len).1,
              ((fq.enqueue_message q data data_len).2,
                log ++ [queue_call.enqueue data data_len]))) ∧
      ((fq.enqueue_message q data data_len).1 = RTP_OK → more = true →
        handle_small_packet (recording fq) (q, log) data data_len more
          = (RTP_NOT_READY,
              ((fq.enqueue_message q data data_len).2,
                log ++ [queue_call.enqueue data data_len]))) ∧
      ((fq.enqueue_message q data data_len).1 = RTP_OK → more = false →
        handle_small_packet (recording fq) (q, log) data data_len more
          = ((fq.flush_queue (fq.enqueue_message q data data_len).2).1,
              ((fq.flush_queue (fq.enqueue_message q data data_len).2).2,
                log ++ [queue_call.enqueue data data_len, queue_call.flush]))) := by
  refine ⟨?_, ?_, ?_⟩
  · intro h
    simp [handle_small_packet, recording, h]
  · intro h hm
    simp [handle_small_packet, recording, h, hm]
  · intro h hm
    simp [handle_small_packet, recording, h, hm]

/-- C9 at a queue whose enqueue succeeds and whose flush reports `RTP_SEND_ERROR`, with
`more` not set: one enqueue, one flush, and the result of the flush. -/
theorem C9_handle_small_packet_witness :
    (((fixed_queue RTP_OK RTP_SEND_ERROR).enqueue_message () [1, 2] 2).1 = RTP_OK ∧
        false = false) ∧
      handle_small_packet (recording (fixed_queue RTP_OK RTP_SEND_ERROR)) ((), []) [1, 2] 2
          false
        = (RTP_SEND_ERROR, ((), [queue_call.enqueue [1, 2] 2, queue_call.flush])) :=
  ⟨⟨rfl, rfl⟩,
    (C9_handle_small_packet Unit (fixed_queue RTP_OK RTP_SEND_ERROR) () [] [1, 2] 2 false).2.2
      rfl rfl⟩

/-- The mask `0x3f` of the receive side gives back a 5-bit type from an FU header byte
that has only the flag bits 7 and 6 above it. -/
theorem fu_header_byte_mask (start last : Bool) (t : Nat) (ht : t < 32) :
    fu_header_byte start last t &&& 0x3f = t := by
  unfold fu_header_byte
  cases start <;> cases last <;> interval_cases t <;> rfl

/-- The send-side `get_nal_type` yields a 5-bit value. -/
theorem get_nal_type_lt (data : List Nat) : get_nal_type data < 32 := by
  unfold get_nal_type
  have h31 : (0x1f : Nat) = 2 ^ 5 - 1 := by norm_num
  rw [h31, Nat.and_pow_two_sub_one_eq_mod]
  have h : data.getD 1 0 >>> 3 % 2 ^ 5 < 32 := Nat.mod_lt _ (by norm_num)
  omega

/-- C11: the receive-side category agrees with the send-side NAL type across the FU
header. For every 5-bit type `t` (such as every value of the send-side `get_nal_type`,
`(b[1] >> 3) & 0x1F`) and every combination of the START and END flags, a received frame
whose payload byte 2 is the FU header with these flags in bits 7 and 6 and `t` in the low
bits is categorised by `get_nal_type(frame)` as `NT_INTRA` exactly when `t = 19`, as
`NT_INTER` exactly when `t = 1` and as `NT_OTHER` exactly for every other `t`; a frame that
carries the same `t` with other flags gets the same category. -/
theorem C11_receive_category_matches_send_type (frame : rtp_frame) (start last : Bool)
    (t : Nat) (ht : t < 32)
    (hfu : frame.payload[2]? = some (fu_header_byte start last t)) :
    (get_nal_type_frame frame = NAL_TYPES.NT_INTRA ↔ t = 19) ∧
      (get_nal_type_frame frame = NAL_TYPES.NT_INTER ↔ t = 1) ∧
      (get_nal_type_frame frame = NAL_TYPES.NT_OTHER ↔ (t ≠ 19 ∧ t ≠ 1)) ∧
      (∀ (g : rtp_frame) (start1 last1 : Bool),
        g.payload[2]? = some (fu_header_byte start1 last1 t) →
        get_nal_type_frame g = get_nal_type_frame frame) ∧
      (∀ data : List Nat, get_nal_type data < 32) := by
  have key : ∀ (g : rtp_frame) (s1 e1 : Bool),
      g.payload[2]? = some (fu_header_byte s1 e1 t) →
      get_nal_type_frame g
        = if t = 19 then NAL_TYPES.NT_INTRA
          else if t = 1 then NAL_TYPES.NT_INTER else NAL_TYPES.NT_OTHER := by
    intro g s1 e1 hg
    have hb : g.payload.getD 2 0 = fu_header_byte s1 e1 t := by
      rw [List.getD_eq_getElem?_getD, hg]
      rfl
    unfold get_nal_type_frame
    rw [hb, fu_header_byte_mask s1 e1 t ht]
    split
    · simp
    · simp
    · rename_i h19 h1
      have h19a : t ≠ 19 := fun h => h19 h
      have h1a : t ≠ 1 := fun h => h1 h
      simp [h19a, h1a]
  refine ⟨?_, ?_, ?_, ?_, get_nal_type_lt⟩
  · rw [key frame start last hfu]
    by_cases h19 : t = 19
    · simp [h19]
    · by_cases h1 : t = 1 <;> simp [h19, h1]
  · rw [key frame start last hfu]
    by_cases h19 : t = 19
    · simp [h19]
    · by_cases h1 : t = 1 <;> simp [h19, h1]
  · rw [key frame start last hfu]
    by_cases h19 : t = 19
    · simp [h19]
    · by_cases h1 : t = 1 <;> simp [h19, h1]
  · intro g s1 e1 hg
    rw [key g s1 e1 hg, key frame start last hfu]

/-- C11 at the END fragment of a NAL unit of type 19: the NAL unit `[0x00, 0x9B]` has
send-side type 19, the received payload `[0x00, 0xE8, 0x53]` carries the FU header
`0x40 | 19`, and the frame is categorised `NT_INTRA`. -/
theorem C11_receive_category_matches_send_type_witness :
    (get_nal_type [0x00, 0x9B] < 32 ∧
        (frame_of_payload [0x00, 0xE8, 0x53]).payload[2]?
          = some (fu_header_byte false true (get_nal_type [0x00, 0x9B]))) ∧
      (get_nal_type_frame (frame_of_payload [0x00, 0xE8, 0x53]) = NAL_TYPES.NT_INTRA ↔
        get_nal_type [0x00, 0x9B] = 19) :=
  ⟨⟨by decide, by decide⟩,
    (C11_receive_category_matches_send_type (frame_of_payload [0x00, 0xE8, 0x53]) false true
      (get_nal_type [0x00, 0x9B]) (by decide) (by decide)).1⟩

end formats

/-! ## Theorems: lifecycle -/

namespace lifecycle

theorem mutex_discipline_step (t : turn) (s s1 : system) (hi : mutex_discipline s)
    (h : step t s = some s1) : mutex_discipline s1 := by
  obtain ⟨a, m, c, r, n⟩ := s
  unfold mutex_discipline at hi ⊢
  cases t <;> cases c <;> cases r <;> rcases m with _ | (_ | _) <;>
    simp only [step, caller_step, reader_step] at h
  all_goals try split at h
  all_goals try split at h
  all_goals cases h <;> simp_all

theorem mutex_discipline_run (ts : List turn) (s s1 : system) (hi : mutex_discipline s)
    (h : run ts s = some s1) : mutex_discipline s1 := by
  induction ts generalizing s with
  | nil =>
    simp only [run, Option.some.injEq] at h
    subst h
    exact hi
  | cons t ts ih =>
    unfold run at h
    split at h
    · cases h
    · rename_i s2 hs
      exact ih s2 (mutex_discipline_step t s s2 hi hs) h

/-- What the handshake does achieve: in every state reachable from a fresh dispatcher in
which `stop()` has returned, the reader is not inside its receive loop, so no round of the
loop, hence no handler call, can follow. -/
theorem no_round_after_stop (ts : List turn) (s : system) (h : run ts init = some s)
    (hstop : s.caller = caller_pc.stop_returned) (b : Bool) :
    s.reader ≠ reader_pc.loop_head ∧ s.reader ≠ reader_pc.unlock_exit_mtx ∧
      ∀ s1, reader_step b s = some s1 → s1.rounds = s.rounds := by
  have hinit : mutex_discipline init := by
    refine ⟨?_, ?_, ?_⟩ <;> simp [init]
  obtain ⟨h1, h2, _⟩ := mutex_discipline_run ts init s hinit h
  have hm : s.exit_mtx_ = some thread.caller := h2.mpr hstop
  have hnot : ¬ (s.reader = reader_pc.loop_head ∨ s.reader = reader_pc.unlock_exit_mtx) := by
    intro hr
    have := h1.mpr hr
    rw [hm] at this
    cases this
  refine ⟨fun hr => hnot (Or.inl hr), fun hr => hnot (Or.inr hr), ?_⟩
  intro s1 hs
  obtain ⟨a, m, c, r, n⟩ := s
  simp only at hm hnot
  subst hm
  cases r <;> simp only [reader_step] at hs
  · cases hs
  · split at hs <;> cases hs <;> rfl
  · cases hs
  · exact absurd (Or.inl rfl) hnot
  · exact absurd (Or.inr rfl) hnot
  · cases hs

/-- A reader left at its wait for `active_` after `stop()` spins there for ever. -/
theorem reader_spins_for_ever (n : Nat) (b : Bool) :
    run (List.replicate n (turn.reader b)) stopped_before_reader_ran
      = some stopped_before_reader_ran := by
  induction n with
  | zero => rfl
  | succ n ih =>
    rw [List.replicate_succ, run]
    exact ih

/-- C10, evaluated on the code: `stop()` can return while the reader thread is alive. From
a fresh dispatcher, when the caller runs `start()` and `stop()` to their end before the
reader has moved, `try_lock` succeeds at once and `stop()` returns with the reader still at
its wait for `active_` (line 173); when the reader has just left that wait, `stop()` returns
with the reader at `exit_mtx->lock()` (line 176), where it cannot move any more. In neither
state has the reader entered its loop, released the exit mutex or exited. When instead the
reader reaches its loop before `stop()` is called, `stop()` returns only after the reader
has exited. -/
theorem C10_stop_returns_before_reader_exit :
    run [turn.caller, turn.caller, turn.caller, turn.caller] init
        = some stopped_before_reader_ran ∧
      stopped_before_reader_ran.caller = caller_pc.stop_returned ∧
      stopped_before_reader_ran.reader ≠ reader_pc.exited ∧
      reader_step false stopped_before_reader_ran = some stopped_before_reader_ran ∧
      run [turn.caller, turn.caller, turn.reader false, turn.caller, turn.caller] init
        = some stopped_before_reader_locked ∧
      stopped_before_reader_locked.caller = caller_pc.stop_returned ∧
      stopped_before_reader_locked.reader ≠ reader_pc.exited ∧
      reader_step false stopped_before_reader_locked = none ∧
      run [turn.caller, turn.caller, turn.reader false, turn.reader false, turn.reader false,
          turn.caller, turn.caller, turn.reader false, turn.caller, turn.reader false,
          turn.caller] init
        = some { active_ := false, exit_mtx_ := some thread.caller,
                 caller := caller_pc.stop_returned, reader := reader_pc.exited,
                 rounds := 1 } := by
  refine ⟨?_, ?_, ?_, ?_, ?_, ?_, ?_, ?_, ?_⟩ <;> decide

end lifecycle

end uvgrtp
